import Mathlib

/-!
Verification of the parameter-reconciliation logic of `skylar_toolbox`
(`skylar_toolbox/catboost.py`: `update_params` and
`AbsoluteDifferenceCallback.after_iteration`) and of the defaults logic of
`skylar_toolbox/sagemaker.py` (`SKLearn.__init__`), as a shallow embedding.

Modelling choices, mirrored from the Python source:
- A pandas `DataFrame` is reduced to its schema: an ordered list of named
  columns, each with a declared dtype (`object` vs numeric); that is all
  that `update_params` inspects.
- `pandas.Index.intersection` (default `sort=False`) keeps the order of the
  calling index and deduplicates; `pandas.Index.union` (default `sort=None`)
  returns the deduplicated union in sorted order for string-valued indexes.
- A Python dict with the two keys that `update_params` reads and writes
  (`cat_features`, `monotone_constraints`) is modelled as a record with one
  `Option`-valued field per distinguished key (`none` = key absent) plus an
  association list for all remaining keys. `dict.get(k, default)` is
  `Option.getD`, and `dict.update(cat_features=..., monotone_constraints=...)`
  writes both fields to `some`.
- Metric values handled by `AbsoluteDifferenceCallback` are modelled as
  rationals: the claims concern the comparison structure, not rounding.
-/

/-- Declared element type of a dataframe column, as far as
`X.select_dtypes(include=object)` distinguishes: `object` (categorical) or
numeric. -/
inductive DType where
  | numeric : DType
  | object : DType
deriving DecidableEq, Repr

/-- One dataframe column: a name and a declared dtype. -/
structure Column where
  name : String
  dtype : DType
deriving DecidableEq, Repr

/-- The schema of the feature matrix `X`: its ordered columns. -/
structure FeatureMatrix where
  cols : List Column
deriving DecidableEq, Repr

/-- `X.columns` as a list of names, in column order. -/
def FeatureMatrix.columnNames (X : FeatureMatrix) : List String :=
  X.cols.map Column.name

/-- `X.select_dtypes(include=object).columns`: names of the columns whose
declared dtype is `object`, in column order. -/
def FeatureMatrix.objectColumnNames (X : FeatureMatrix) : List String :=
  (X.cols.filter (fun c => c.dtype = DType.object)).map Column.name

/-- `pandas.Index.intersection` with its default `sort=False`: elements of
`self` that also occur in `other`, in the order of `self`, deduplicated. -/
def indexIntersection (self other : List String) : List String :=
  self.dedup.filter (fun n => decide (n ∈ other))

/-- `pandas.Index.union` with its default `sort=None` on string-valued
indexes: the deduplicated union, in sorted order. -/
def indexUnion (self other : List String) : List String :=
  List.insertionSort (· ≤ ·) (self ++ other).dedup

/-- The parameter dict `params_dt`, with the two keys `update_params` touches
made explicit (`none` = key absent from the dict) and every other key/value
pair kept opaquely in `others`. -/
@[ext]
structure ParamsDt (α : Type) where
  cat_features : Option (List String)
  monotone_constraints : Option (List (String × Int))
  others : List (String × α)
deriving DecidableEq

/-- `update_params(params_dt, X)` from `skylar_toolbox/catboost.py`:
recomputes `cat_features` as
`X.columns.intersection(old).union(X.select_dtypes(include=object).columns)`,
filters `monotone_constraints` to keys still in `X.columns` when it is
non-empty (keeps it as-is when empty, Python truthiness), and writes both
keys back with `dict.update`. -/
def update_params {α : Type} (params_dt : ParamsDt α) (X : FeatureMatrix) :
    ParamsDt α :=
  let old_cat_features_lt := params_dt.cat_features.getD []
  let new_cat_features_lt :=
    indexUnion (indexIntersection X.columnNames old_cat_features_lt)
      X.objectColumnNames
  let old_monotone_constraints_dt := params_dt.monotone_constraints.getD []
  let new_monotone_constraints_dt :=
    if old_monotone_constraints_dt.isEmpty then old_monotone_constraints_dt
    else old_monotone_constraints_dt.filter
      (fun kv => decide (kv.1 ∈ X.columnNames))
  { params_dt with
      cat_features := some new_cat_features_lt,
      monotone_constraints := some new_monotone_constraints_dt }

lemma mem_indexIntersection {a : String} {self other : List String} :
    a ∈ indexIntersection self other ↔ a ∈ self ∧ a ∈ other := by
  simp [indexIntersection, List.mem_filter, List.mem_dedup]

lemma mem_indexUnion {a : String} {self other : List String} :
    a ∈ indexUnion self other ↔ a ∈ self ∨ a ∈ other := by
  unfold indexUnion
  rw [(List.perm_insertionSort (· ≤ ·) (self ++ other).dedup).mem_iff]
  simp [List.mem_dedup]

lemma mem_objectColumnNames {a : String} {X : FeatureMatrix} :
    a ∈ X.objectColumnNames → a ∈ X.columnNames := by
  intro h
  simp only [FeatureMatrix.objectColumnNames, List.mem_map] at h
  obtain ⟨c, hc, rfl⟩ := h
  exact List.mem_map_of_mem Column.name (List.mem_of_mem_filter hc)

lemma insertionSort_dedup_eq_of_mem_iff {l₁ l₂ : List String}
    (h : ∀ a, a ∈ l₁ ↔ a ∈ l₂) :
    List.insertionSort (· ≤ ·) l₁.dedup =
      List.insertionSort (· ≤ ·) l₂.dedup := by
  have hperm : List.Perm l₁.dedup l₂.dedup := by
    rw [List.perm_ext_iff_of_nodup (List.nodup_dedup l₁) (List.nodup_dedup l₂)]
    intro a
    simp [List.mem_dedup, h a]
  have hperm2 :
      List.Perm (List.insertionSort (· ≤ ·) l₁.dedup)
        (List.insertionSort (· ≤ ·) l₂.dedup) :=
    ((List.perm_insertionSort _ _).trans hperm).trans
      (List.perm_insertionSort _ _).symm
  exact List.eq_of_perm_of_sorted hperm2
    (List.sorted_insertionSort _ _) (List.sorted_insertionSort _ _)

lemma indexUnion_eq_of_mem_iff {s₁ o₁ s₂ o₂ : List String}
    (h : ∀ a, a ∈ s₁ ∨ a ∈ o₁ ↔ a ∈ s₂ ∨ a ∈ o₂) :
    indexUnion s₁ o₁ = indexUnion s₂ o₂ := by
  unfold indexUnion
  exact insertionSort_dedup_eq_of_mem_iff (by simpa using h)

-- Spec section 8 scenario: P = {cat: [city, country], mono: {age: 1}},
-- F = [age num, country obj, income num].
example :
    (update_params
      (ParamsDt.mk (some ["city", "country"]) (some [("age", 1)])
        ([] : List (String × Nat)))
      (FeatureMatrix.mk
        [Column.mk "age" DType.numeric, Column.mk "country" DType.object,
         Column.mk "income" DType.numeric])).cat_features
      = some ["country"] := by decide

example :
    (update_params
      (ParamsDt.mk none (some [("x", -1), ("y", 1)])
        ([] : List (String × Nat)))
      (FeatureMatrix.mk [Column.mk "x" DType.numeric])).monotone_constraints
      = some [("x", -1)] := by decide

lemma indexUnion_intersection_idem (names obj old : List String) :
    indexUnion
        (indexIntersection names (indexUnion (indexIntersection names old) obj))
        obj =
      indexUnion (indexIntersection names old) obj := by
  apply indexUnion_eq_of_mem_iff
  intro a
  constructor
  · rintro (h | h)
    · exact mem_indexUnion.mp (mem_indexIntersection.mp h).2
    · exact Or.inr h
  · rintro (h | h)
    · exact Or.inl (mem_indexIntersection.mpr
        ⟨(mem_indexIntersection.mp h).1, mem_indexUnion.mpr (Or.inl h)⟩)
    · exact Or.inr h

/-- C1: for every parameter set and feature matrix, the `cat_features` list
produced by `update_params` equals, as a set, (the old categorical set
intersected with the column names of `X`) unioned with (the columns of `X`
whose declared dtype is object/categorical); the materialized order is a
fixed function of the inputs (sorted union of the deduplicated
intersection), hence deterministic. -/
theorem update_params_cat_features_set {α : Type} (P : ParamsDt α)
    (X : FeatureMatrix) (a : String) :
    a ∈ (update_params P X).cat_features.getD [] ↔
      (a ∈ P.cat_features.getD [] ∧ a ∈ X.columnNames) ∨
        a ∈ X.objectColumnNames := by
  simp only [update_params, Option.getD_some]
  rw [mem_indexUnion, mem_indexIntersection]
  tauto

/-- C2: when the input `monotone_constraints` mapping is present and
non-empty, `update_params` returns exactly its restriction to keys that are
column names of `X`, each retained entry keeping its original value. -/
theorem update_params_monotone_restriction {α : Type} (P : ParamsDt α)
    (X : FeatureMatrix) (m : List (String × Int))
    (hm : P.monotone_constraints = some m) (hne : m ≠ []) :
    (update_params P X).monotone_constraints =
      some (m.filter (fun kv => decide (kv.1 ∈ X.columnNames))) := by
  simp only [update_params, hm, Option.getD_some]
  rw [if_neg (by simpa [List.isEmpty_iff] using hne)]

/-- Witness for C2 at the spec section 8 scenario
`P.monotone_constraints = {x: -1, y: 1}`, `X` with single numeric column
`x`: the `y` entry is dropped and the `x` entry keeps its value. -/
theorem update_params_monotone_restriction_wit :
    (update_params
      (ParamsDt.mk none (some [("x", -1), ("y", 1)])
        ([] : List (String × Nat)))
      (FeatureMatrix.mk [Column.mk "x" DType.numeric])).monotone_constraints
      = some [("x", -1)] := by
  have h := update_params_monotone_restriction
    (ParamsDt.mk none (some [("x", -1), ("y", 1)]) ([] : List (String × Nat)))
    (FeatureMatrix.mk [Column.mk "x" DType.numeric])
    [("x", -1), ("y", 1)] rfl (by decide)
  exact h.trans (by decide)

/-- C3 counterexample: for a parameter set with no `monotone_constraints`
key at all and an empty feature matrix, `update_params` still writes the
key into the result (bound to the empty mapping), because `dict.update`
always sets it; so the claim that no key is introduced is false. -/
theorem update_params_monotone_key_introduced :
    (ParamsDt.mk none none ([] : List (String × Nat))).monotone_constraints
        = none ∧
      (update_params (ParamsDt.mk none none ([] : List (String × Nat)))
        (FeatureMatrix.mk [])).monotone_constraints ≠ none := by
  decide

/-- C3 amended: if the input `monotone_constraints` key is absent or maps to
the empty mapping, the value stays empty, but the key is always present in
the result, bound to the empty mapping. -/
theorem update_params_monotone_empty {α : Type} (P : ParamsDt α)
    (X : FeatureMatrix)
    (h : P.monotone_constraints = none ∨ P.monotone_constraints = some []) :
    (update_params P X).monotone_constraints = some [] := by
  rcases h with h | h <;> simp [update_params, h]

/-- Witness for the amended C3: a parameter set without the key, against a
one-column matrix, yields `some []`. -/
theorem update_params_monotone_empty_wit :
    (update_params (ParamsDt.mk none none ([] : List (String × Nat)))
      (FeatureMatrix.mk [Column.mk "a" DType.object])).monotone_constraints
      = some [] :=
  update_params_monotone_empty _ _ (Or.inl rfl)

/-- C4: the `cat_features` list of the result is a subset of the column
names of `X`, and every key of the result's `monotone_constraints` is a
column name of `X`. -/
theorem update_params_subset_invariant {α : Type} (P : ParamsDt α)
    (X : FeatureMatrix) :
    (∀ a ∈ (update_params P X).cat_features.getD [], a ∈ X.columnNames) ∧
      (∀ kv ∈ (update_params P X).monotone_constraints.getD [],
        kv.1 ∈ X.columnNames) := by
  constructor
  · intro a ha
    simp only [update_params, Option.getD_some] at ha
    rcases mem_indexUnion.mp ha with h | h
    · exact (mem_indexIntersection.mp h).1
    · exact mem_objectColumnNames h
  · intro kv hkv
    simp only [update_params, Option.getD_some] at hkv
    by_cases h0 : (P.monotone_constraints.getD []).isEmpty
    · rw [if_pos h0] at hkv
      rw [List.isEmpty_iff.mp h0] at hkv
      exact absurd hkv (List.not_mem_nil kv)
    · rw [if_neg h0] at hkv
      simpa using (List.mem_filter.mp hkv).2

/-- Witness for C4: one object column `b` and one retained constraint on
`b`; both membership conclusions are discharged at this input. -/
theorem update_params_subset_invariant_wit :
    "b" ∈ (FeatureMatrix.mk [Column.mk "b" DType.object]).columnNames ∧
      ("b", (1 : Int)).1 ∈
        (FeatureMatrix.mk [Column.mk "b" DType.object]).columnNames := by
  have h := update_params_subset_invariant
    (ParamsDt.mk none (some [("b", 1)]) ([] : List (String × Nat)))
    (FeatureMatrix.mk [Column.mk "b" DType.object])
  exact ⟨h.1 "b" (by decide), h.2 ("b", 1) (by decide)⟩

/-- C5: `update_params` is idempotent: reconciling its own result against
the same feature matrix returns the same parameter set. -/
theorem update_params_idempotent {α : Type} (P : ParamsDt α)
    (X : FeatureMatrix) :
    update_params (update_params P X) X = update_params P X := by
  ext1
  · show some _ = some _
    exact congrArg some (indexUnion_intersection_idem _ _ _)
  · have hM : (update_params P X).monotone_constraints.getD [] =
        (if (P.monotone_constraints.getD []).isEmpty then
          P.monotone_constraints.getD []
        else (P.monotone_constraints.getD []).filter
          (fun kv => decide (kv.1 ∈ X.columnNames))) := rfl
    show some _ = some _
    apply congrArg some
    rw [hM]
    by_cases h0 : (P.monotone_constraints.getD []).isEmpty
    · simp only [if_pos h0]
    · simp only [if_neg h0]
      have hself :
          ((P.monotone_constraints.getD []).filter
              (fun kv => decide (kv.1 ∈ X.columnNames))).filter
              (fun kv => decide (kv.1 ∈ X.columnNames)) =
            (P.monotone_constraints.getD []).filter
              (fun kv => decide (kv.1 ∈ X.columnNames)) :=
        List.filter_eq_self.mpr (fun a ha => (List.mem_filter.mp ha).2)
      by_cases h1 : ((P.monotone_constraints.getD []).filter
          (fun kv => decide (kv.1 ∈ X.columnNames))).isEmpty
      · rw [if_pos h1]
      · rw [if_neg h1, hself]
  · rfl

/-- C6: `update_params` never invents a monotone constraint: a column name
that is not a key of the input `monotone_constraints` is not a key of the
result's `monotone_constraints`, whatever the feature matrix. -/
theorem update_params_no_invented_constraints {α : Type} (P : ParamsDt α)
    (X : FeatureMatrix) (k : String)
    (hk : k ∉ (P.monotone_constraints.getD []).map Prod.fst) :
    k ∉ ((update_params P X).monotone_constraints.getD []).map Prod.fst := by
  intro hmem
  apply hk
  simp only [update_params, Option.getD_some] at hmem
  by_cases h0 : (P.monotone_constraints.getD []).isEmpty
  · rw [if_pos h0] at hmem
    exact hmem
  · rw [if_neg h0] at hmem
    simp only [List.mem_map] at hmem ⊢
    obtain ⟨kv, hkv, rfl⟩ := hmem
    exact ⟨kv, List.mem_of_mem_filter hkv, rfl⟩

/-- Witness for C6: `z` is a column of `X` but not a key of the input
constraints, and is not a key of the output constraints. -/
theorem update_params_no_invented_constraints_wit :
    "z" ∉ ((update_params
      (ParamsDt.mk none (some [("a", 1)]) ([] : List (String × Nat)))
      (FeatureMatrix.mk
        [Column.mk "a" DType.numeric,
         Column.mk "z" DType.numeric])).monotone_constraints.getD []).map
      Prod.fst :=
  update_params_no_invented_constraints _ _ "z" (by decide)

/-- C7: `update_params` writes only the `cat_features` and
`monotone_constraints` keys; every other key/value pair of the input dict is
returned unchanged. -/
theorem update_params_frame_others {α : Type} (P : ParamsDt α)
    (X : FeatureMatrix) :
    (update_params P X).others = P.others := rfl

/-- C8: `update_params` is total: a missing key is read as the empty
collection (reconciling a dict without the two keys is the same as
reconciling one where both are present and empty), and a feature matrix
with zero columns yields an empty `cat_features` list and an empty
`monotone_constraints` mapping. -/
theorem update_params_total_defaults {α : Type} :
    (∀ P : ParamsDt α,
        (update_params P (FeatureMatrix.mk [])).cat_features = some [] ∧
          (update_params P (FeatureMatrix.mk [])).monotone_constraints =
            some []) ∧
      ∀ (X : FeatureMatrix) (o : List (String × α)),
        update_params (ParamsDt.mk none none o) X =
          update_params (ParamsDt.mk (some []) (some []) o) X := by
  constructor
  · intro P
    refine ⟨rfl, ?_⟩
    have hM : (update_params P (FeatureMatrix.mk [])).monotone_constraints =
        some (if (P.monotone_constraints.getD []).isEmpty then
          P.monotone_constraints.getD []
        else (P.monotone_constraints.getD []).filter
          (fun kv => decide (kv.1 ∈ (FeatureMatrix.mk []).columnNames))) := rfl
    rw [hM, Option.some_inj]
    by_cases h0 : (P.monotone_constraints.getD []).isEmpty
    · rw [if_pos h0]
      exact List.isEmpty_iff.mp h0
    · rw [if_neg h0]
      exact List.filter_eq_nil_iff.mpr (fun kv _ => by
        simp [FeatureMatrix.columnNames])
  · intro X o
    rfl

/-- `AbsoluteDifferenceCallback` from `skylar_toolbox/catboost.py`: a metric
name and a threshold. Metric values are modelled as rationals: the claims
concern the comparison structure of `after_iteration`, not float rounding. -/
structure AbsoluteDifferenceCallback where
  metric_sr : String
  threshold_ft : ℚ

/-- The `info` object handed to `after_iteration`:
`info.metrics[split][metric]` is the history of values of `metric` on
`split`. The callback reads only the keys `learn` and `validation` at its
configured metric name. -/
structure IterationInfo where
  metrics : String → String → List ℚ

/-- `AbsoluteDifferenceCallback.after_iteration`: reads the last learn and
validation values of the configured metric (`[-1]`, which raises on an
empty history, modelled as `none`), takes the absolute difference, and
continues iff it is strictly below the threshold. -/
def AbsoluteDifferenceCallback.after_iteration
    (cb : AbsoluteDifferenceCallback) (info : IterationInfo) : Option Bool :=
  match (info.metrics "learn" cb.metric_sr).getLast?,
      (info.metrics "validation" cb.metric_sr).getLast? with
  | some learn_metric_ft, some validation_metric_ft =>
      some (decide
        (|validation_metric_ft - learn_metric_ft| < cb.threshold_ft))
  | _, _ => none

/-- C9: for non-empty learn and validation histories (last values `l` and
`v`), `after_iteration` continues iff `|v - l| < threshold`; in particular,
when the absolute difference equals the threshold exactly it returns
`false` (stop). -/
theorem after_iteration_abs_difference (cb : AbsoluteDifferenceCallback)
    (info : IterationInfo) (l v : ℚ)
    (hl : (info.metrics "learn" cb.metric_sr).getLast? = some l)
    (hv : (info.metrics "validation" cb.metric_sr).getLast? = some v) :
    cb.after_iteration info = some (decide (|v - l| < cb.threshold_ft)) ∧
      (|v - l| = cb.threshold_ft → cb.after_iteration info = some false) := by
  constructor
  · simp [AbsoluteDifferenceCallback.after_iteration, hl, hv]
  · intro he
    simp [AbsoluteDifferenceCallback.after_iteration, hl, hv, he]

/-- Witness for C9: learn history ends at 1/2, validation at 51/100,
threshold 1/100; the difference equals the threshold exactly, so training
stops. -/
theorem after_iteration_abs_difference_wit :
    (AbsoluteDifferenceCallback.mk "Logloss" (1 / 100)).after_iteration
      (IterationInfo.mk (fun split_sr _ =>
        if split_sr == "learn" then [1 / 2] else [51 / 100])) = some false := by
  have h := after_iteration_abs_difference
    (AbsoluteDifferenceCallback.mk "Logloss" (1 / 100))
    (IterationInfo.mk (fun split_sr _ =>
      if split_sr == "learn" then [1 / 2] else [51 / 100]))
    (1 / 2) (51 / 100) rfl rfl
  exact h.2 (by norm_num)

/-- A Python value stored in the keyword-argument dict that
`SKLearn.__init__` (`skylar_toolbox/sagemaker.py`) builds: strings, ints,
bools, `None`, dicts and lists. Externally produced objects (the sagemaker
session, the execution role) enter as already-built values of this type. -/
inductive SVal where
  | strV : String → SVal
  | intV : Int → SVal
  | boolV : Bool → SVal
  | noneV : SVal
  | dictV : List (String × SVal) → SVal
  | listV : List SVal → SVal

/-- `d[k] = v` on a Python dict, modelled as an association list with keys
in insertion order: replace the (first) entry for `k` in place if present,
otherwise append `(k, v)` at the end. -/
def python_dict_set : List (String × SVal) → String → SVal →
    List (String × SVal)
  | [], k, v => [(k, v)]
  | kv :: tl, k, v =>
      if kv.1 = k then (kv.1, v) :: tl
      else kv :: python_dict_set tl k v

/-- `d.update(other)`: set each key of `other`, in order. -/
def python_dict_update (d other : List (String × SVal)) :
    List (String × SVal) :=
  other.foldl (fun acc kv => python_dict_set acc kv.1 kv.2) d

/-- `d[k]` / `d.get(k)`: the value at the first entry for `k`. -/
def python_dict_get (d : List (String × SVal)) (k : String) : Option SVal :=
  (d.find? (fun kv => decide (kv.1 = k))).map (fun kv => kv.2)

/-- The `defaults_dt` dict built by `SKLearn.__init__` before
`defaults_dt.update(init_dt)`. Results of external calls are inputs:
`default_bucket_sr` is `sagemaker_sn.default_bucket()`, `role_v` is
`sagemaker.get_execution_role(sagemaker_session=sagemaker_sn)`, and
`sagemaker_session_v` stands for the `sagemaker_sn` object itself. -/
def sklearn_defaults_dt (source_directory_sr : String)
    (hyperparameters_dt : List (String × SVal)) (sagemaker_session_v : SVal)
    (default_bucket_sr : String) (role_v : SVal)
    (dependencies_lt : List SVal) (instance_type_sr : String)
    (use_spot_instances_bl : Bool) : List (String × SVal) :=
  let base_job_name_sr := (source_directory_sr.replace "_" "-").take 30
  let local_mode_bl := instance_type_sr == "local"
  let defaults_dt : List (String × SVal) := [
    ("entry_point", SVal.strV "script.py"),
    ("framework_version", SVal.strV "0.23-1"),
    ("source_dir", SVal.strV source_directory_sr),
    ("hyperparameters", SVal.dictV hyperparameters_dt),
    ("code_location", SVal.strV ("s3://" ++ default_bucket_sr ++ "/")),
    ("dependencies", SVal.listV dependencies_lt),
    ("role", role_v),
    ("instance_count", SVal.intV 1),
    ("instance_type", SVal.strV instance_type_sr),
    ("output_path", SVal.strV
      ("s3://" ++ default_bucket_sr ++ "/" ++ base_job_name_sr)),
    ("base_job_name", SVal.strV base_job_name_sr),
    ("sagemaker_session",
      if local_mode_bl then SVal.noneV else sagemaker_session_v),
    ("metric_definitions", SVal.listV [SVal.dictV
      [("Name", SVal.strV "Score"),
       ("Regex", SVal.strV "Score: ([-]?[0-9\\.]+)")]]),
    ("use_spot_instances",
      SVal.boolV (if local_mode_bl then false else use_spot_instances_bl)),
    ("max_wait", SVal.intV (1 * 60 * 60))]
  if local_mode_bl then defaults_dt
  else python_dict_set defaults_dt "disable_profiler" (SVal.boolV true)

/-- `self.init_dt` as built by `SKLearn.__init__`: the defaults dict with
`init_dt` applied over it (`defaults_dt.update(init_dt)`); this is the
keyword-argument dict passed to the wrapped `srsn.SKLearn`. -/
def sklearn_init_dt (source_directory_sr : String)
    (hyperparameters_dt : List (String × SVal)) (sagemaker_session_v : SVal)
    (default_bucket_sr : String) (role_v : SVal)
    (dependencies_lt : List SVal) (instance_type_sr : String)
    (use_spot_instances_bl : Bool) (init_dt : List (String × SVal)) :
    List (String × SVal) :=
  python_dict_update
    (sklearn_defaults_dt source_directory_sr hyperparameters_dt
      sagemaker_session_v default_bucket_sr role_v dependencies_lt
      instance_type_sr use_spot_instances_bl)
    init_dt

lemma python_dict_get_set_self (d : List (String × SVal)) (k : String)
    (v : SVal) : python_dict_get (python_dict_set d k v) k = some v := by
  induction d with
  | nil => simp [python_dict_set, python_dict_get]
  | cons hd tl ih =>
    by_cases hk : hd.1 = k
    · simp [python_dict_set, hk, python_dict_get]
    · simpa [python_dict_set, hk, python_dict_get, List.find?_cons] using ih

lemma python_dict_get_set_other (d : List (String × SVal))
    (k k' : String) (v : SVal) (hne : k' ≠ k) :
    python_dict_get (python_dict_set d k' v) k = python_dict_get d k := by
  induction d with
  | nil => simp [python_dict_set, python_dict_get, hne]
  | cons hd tl ih =>
    by_cases hk : hd.1 = k'
    · subst hk
      simp [python_dict_set, python_dict_get, hne, List.find?_cons]
    · have hset : python_dict_set (hd :: tl) k' v =
          hd :: python_dict_set tl k' v := by
        rw [python_dict_set, if_neg hk]
      rw [hset]
      by_cases hk2 : hd.1 = k
      · simp [python_dict_get, List.find?_cons, hk2]
      · simpa [python_dict_get, List.find?_cons, hk2] using ih

lemma python_dict_get_update_not_mem (d other : List (String × SVal))
    (k : String) (h : k ∉ other.map Prod.fst) :
    python_dict_get (python_dict_update d other) k = python_dict_get d k := by
  induction other generalizing d with
  | nil => rfl
  | cons hd tl ih =>
    simp only [List.map_cons, List.mem_cons, not_or] at h
    have hstep : python_dict_update d (hd :: tl) =
        python_dict_update (python_dict_set d hd.1 hd.2) tl := rfl
    rw [hstep, ih _ (by simpa using h.2)]
    exact python_dict_get_set_other d k hd.1 hd.2 (fun he => h.1 (he ▸ rfl))

lemma python_dict_get_update_mem (d other : List (String × SVal))
    (k : String) (hnd : (other.map Prod.fst).Nodup)
    (h : k ∈ other.map Prod.fst) :
    python_dict_get (python_dict_update d other) k =
      python_dict_get other k := by
  induction other generalizing d with
  | nil => simp at h
  | cons hd tl ih =>
    have hstep : python_dict_update d (hd :: tl) =
        python_dict_update (python_dict_set d hd.1 hd.2) tl := rfl
    rw [hstep]
    rw [List.map_cons, List.nodup_cons] at hnd
    by_cases hk : hd.1 = k
    · subst hk
      rw [python_dict_get_update_not_mem _ _ _ hnd.1,
        python_dict_get_set_self]
      simp [python_dict_get, List.find?_cons]
    · have hmem : k ∈ tl.map Prod.fst := by
        rw [List.map_cons] at h
        rcases List.mem_cons.mp h with he | hm
        · exact absurd he.symm hk
        · exact hm
      rw [ih _ hnd.2 hmem]
      simp [python_dict_get, List.find?_cons, hk]

/-- C10: every key supplied in `init_dt` overrides the computed default of
the same name in the argument dict passed to the wrapped estimator; and
when `instance_type_sr = 'local'` and `init_dt` overrides neither key, the
defaults force `use_spot_instances` to `False` regardless of
`use_spot_instances_bl` and set `sagemaker_session` to `None`. -/
theorem sklearn_init_dt_overrides_and_local_defaults
    (source_directory_sr : String)
    (hyperparameters_dt : List (String × SVal)) (sagemaker_session_v : SVal)
    (default_bucket_sr : String) (role_v : SVal)
    (dependencies_lt : List SVal) (instance_type_sr : String)
    (use_spot_instances_bl : Bool) (init_dt : List (String × SVal)) :
    ((init_dt.map Prod.fst).Nodup → ∀ k ∈ init_dt.map Prod.fst,
        python_dict_get
          (sklearn_init_dt source_directory_sr hyperparameters_dt
            sagemaker_session_v default_bucket_sr role_v dependencies_lt
            instance_type_sr use_spot_instances_bl init_dt) k =
          python_dict_get init_dt k) ∧
      (instance_type_sr = "local" →
        "use_spot_instances" ∉ init_dt.map Prod.fst →
        "sagemaker_session" ∉ init_dt.map Prod.fst →
        python_dict_get
            (sklearn_init_dt source_directory_sr hyperparameters_dt
              sagemaker_session_v default_bucket_sr role_v dependencies_lt
              instance_type_sr use_spot_instances_bl init_dt)
            "use_spot_instances" = some (SVal.boolV false) ∧
          python_dict_get
            (sklearn_init_dt source_directory_sr hyperparameters_dt
              sagemaker_session_v default_bucket_sr role_v dependencies_lt
              instance_type_sr use_spot_instances_bl init_dt)
            "sagemaker_session" = some SVal.noneV) := by
  constructor
  · intro hnd k hk
    exact python_dict_get_update_mem _ init_dt k hnd hk
  · intro hloc h1 h2
    subst hloc
    rw [sklearn_init_dt, python_dict_get_update_not_mem _ _ _ h1,
      python_dict_get_update_not_mem _ _ _ h2]
    exact ⟨rfl, rfl⟩

/-- Witness for C10 at concrete arguments: `init_dt` overrides
`entry_point`, the instance type is `local`, `use_spot_instances_bl` is
`true`, yet the resulting dict has the overridden entry point, spot
instances off, and no session. -/
theorem sklearn_init_dt_overrides_and_local_defaults_wit :
    python_dict_get
        (sklearn_init_dt "my_src" [] (SVal.strV "session") "bucket"
          (SVal.strV "role") [] "local" true
          [("entry_point", SVal.strV "train.py")])
        "entry_point" = some (SVal.strV "train.py") ∧
      python_dict_get
        (sklearn_init_dt "my_src" [] (SVal.strV "session") "bucket"
          (SVal.strV "role") [] "local" true
          [("entry_point", SVal.strV "train.py")])
        "use_spot_instances" = some (SVal.boolV false) ∧
      python_dict_get
        (sklearn_init_dt "my_src" [] (SVal.strV "session") "bucket"
          (SVal.strV "role") [] "local" true
          [("entry_point", SVal.strV "train.py")])
        "sagemaker_session" = some SVal.noneV := by
  have h := sklearn_init_dt_overrides_and_local_defaults "my_src" []
    (SVal.strV "session") "bucket" (SVal.strV "role") [] "local" true
    [("entry_point", SVal.strV "train.py")]
  refine ⟨?_, (h.2 rfl (by simp) (by simp)).1, (h.2 rfl (by simp) (by simp)).2⟩
  rw [h.1 (by simp) "entry_point" (by simp)]
  rfl
